import Mathlib

/-!
Verification of `iphoto.py` (dustinbcox/iphoto).

Shallow embedding of `src/iphoto.py`. Python strings are modelled as
`List Char`, Python dicts as insertion-ordered association lists
(CPython dicts preserve insertion order), plist scalar values by the
inductive type `Value`, and Python exceptions by `Except PyErr`.
`datetime.datetime` values are modelled by the `DateTime` structure
(proleptic Gregorian calendar; Python additionally restricts years to
1..9999, a range restriction the spec explicitly leaves out of scope).
-/

/-- The marker substring `"AsTimerInterval"` of `timerinterval_to_datetime`. -/
def marker : List Char := "AsTimerInterval".toList

/-- The key substring `"OriginalPath"` tested by `IPhoto.photos`. -/
def opath : List Char := "OriginalPath".toList

/-- Python `pat in s` substring test (for nonempty and empty `pat`). -/
def containsSub (pat : List Char) : List Char → Bool
  | [] => pat.isEmpty
  | c :: rest => pat.isPrefixOf (c :: rest) || containsSub pat rest

/-- Scanner for Python `str.replace(marker, '')`: with skip budget `0`,
emits characters until `marker` is a prefix, then drops the match
(non-overlapping, left to right) by entering skip mode for the other
14 matched characters. -/
def stripGo : Nat → List Char → List Char
  | _, [] => []
  | 0, c :: rest =>
    if marker.isPrefixOf (c :: rest) then stripGo (marker.length - 1) rest
    else c :: stripGo 0 rest
  | n + 1, _ :: rest => stripGo n rest

/-- Python `key.replace('AsTimerInterval', '')` from line 82 of `iphoto.py`. -/
def stripM (key : List Char) : List Char := stripGo 0 key

-- ## Calendar arithmetic (model of Python's `datetime` module)

/-- Model of `datetime.datetime`: a proleptic Gregorian calendar timestamp
with microsecond precision, as produced by Python's `datetime` arithmetic. -/
structure DateTime where
  year : Int
  month : Int
  day : Int
  hour : Int
  minute : Int
  second : Int
  microsecond : Int
deriving DecidableEq

/-- Day number (days since 1970-01-01) of a Gregorian calendar date;
the standard civil-from-days algorithm used to model Python's
`datetime.toordinal` arithmetic. -/
def daysFromCivil (y m d : Int) : Int :=
  let y' := if m ≤ 2 then y - 1 else y
  let era := y' / 400
  let yoe := y' - era * 400
  let mp := (m + 9) % 12
  let doy := (153 * mp + 2) / 5 + d - 1
  let doe := yoe * 365 + yoe / 4 - yoe / 100 + doy
  era * 146097 + doe - 719468

/-- Gregorian calendar date of a day number (inverse of `daysFromCivil`);
models Python's ordinal-to-date conversion. -/
def civilFromDays (z : Int) : Int × Int × Int :=
  let z' := z + 719468
  let era := z' / 146097
  let doe := z' - era * 146097
  let yoe := (doe - doe / 1460 + doe / 36524 - doe / 146096) / 365
  let y := yoe + era * 400
  let doy := doe - (365 * yoe + yoe / 4 - yoe / 100)
  let mp := (5 * doy + 2) / 153
  let d := doy - (153 * mp + 2) / 5 + 1
  let m := mp + (if mp < 10 then 3 else -9)
  (if m ≤ 2 then y + 1 else y, m, d)

/-- The absolute instant denoted by a `DateTime`, in microseconds since
1970-01-01T00:00:00. -/
def instantUs (t : DateTime) : Int :=
  daysFromCivil t.year t.month t.day * 86400000000 + t.hour * 3600000000 +
    t.minute * 60000000 + t.second * 1000000 + t.microsecond

/-- Python `datetime + timedelta` (the timedelta given in integer
microseconds): shift the absolute instant and renormalize into
calendar fields, as `datetime.__add__` does. -/
def addTimedelta (t : DateTime) (us : Int) : DateTime :=
  let n := instantUs t + us
  let day := n / 86400000000
  let tod := n % 86400000000
  let c := civilFromDays day
  ⟨c.1, c.2.1, c.2.2, tod / 3600000000, tod % 3600000000 / 60000000,
    tod % 60000000 / 1000000, tod % 1000000⟩

/-- Round-half-even of a rational to an integer: the rounding
`datetime.timedelta` applies to fractional microseconds. -/
def roundHalfEven (x : ℚ) : Int :=
  let f := ⌊x⌋
  if x - f < 1 / 2 then f
  else if 1 / 2 < x - f then f + 1
  else if f % 2 = 0 then f else f + 1

/-- `datetime.timedelta(seconds=s)` expressed in integer microseconds.
Numeric plist scalars are modelled as rationals (every decimal literal
is a rational); `timedelta` keeps microsecond resolution, rounding
half-to-even. -/
def timedeltaUs (s : ℚ) : Int := roundHalfEven (s * 1000000)

/-- `datetime.datetime(2001, 1, 1)`: the Mac epoch used by
`convert_timer_interval` (line 41 of `iphoto.py`). -/
def macEpochDT : DateTime := ⟨2001, 1, 1, 0, 0, 0, 0⟩

/-- `convert_timer_interval` (lines 29-41 of `iphoto.py`):
`datetime.datetime(2001, 1, 1) + datetime.timedelta(seconds=seconds)`. -/
def convert_timer_interval (seconds : ℚ) : DateTime :=
  addTimedelta macEpochDT (timedeltaUs seconds)

-- ## Values, errors, dictionaries

/-- Scalar values stored in plist records: numbers (plist ints/reals,
modelled as rationals), strings, and the datetimes produced by
normalization. -/
inductive Value where
  | num (q : ℚ)
  | str (s : List Char)
  | dt (t : DateTime)
deriving DecidableEq

/-- The Python exceptions the program can raise: `KeyError` (carrying the
missing key; the spec's `NotFoundError`), the `ValueError` of the album
count check (the spec's `ConsistencyError`), the `TypeError` of
`timedelta(seconds=non_number)`, and the `RuntimeError` CPython raises
when a dict's size or key set changes during iteration. -/
inductive PyErr where
  | keyError (k : List Char)
  | valueError
  | typeError
  | runtimeError
deriving DecidableEq

/-- A Python dict with string keys, as an insertion-ordered association
list (CPython dicts iterate in insertion order; updating an existing key
keeps its position, inserting a new key appends). -/
abbrev Record := List (List Char × Value)

/-- `k in d` for a Python dict. -/
def containsKeyB {α : Type} (d : List (List Char × α)) (k : List Char) : Bool :=
  d.any (fun e => e.1 == k)

/-- `d[k]` lookup (first matching entry). -/
def dictLookup {α : Type} (d : List (List Char × α)) (k : List Char) : Option α :=
  match d with
  | [] => none
  | e :: rest => if e.1 == k then some e.2 else dictLookup rest k

/-- `d[k] = v`: update in place if the key exists, else append. -/
def dictSet {α : Type} (d : List (List Char × α)) (k : List Char) (v : α) :
    List (List Char × α) :=
  if containsKeyB d k then d.map (fun e => if e.1 == k then (k, v) else e)
  else d ++ [(k, v)]

/-- `convert_timer_interval` applied to a raw dict value:
`timedelta(seconds=x)` raises `TypeError` unless `x` is a number. -/
def convertValue : Value → Except PyErr Value
  | .num q => .ok (.dt (convert_timer_interval q))
  | _ => .error .typeError

-- ## `timerinterval_to_datetime` (lines 44-85 of `iphoto.py`)

/-- One pass of the `for key in data:` loop of `timerinterval_to_datetime`,
following CPython dict-iterator semantics: `done` holds the entries the
iterator has already passed (all marker-free), `pending` those still to
be visited, in order. Visiting a marker key first evaluates
`convert_timer_interval(data[key])`, which raises `TypeError` for a
non-numeric value before anything is mutated. Otherwise the body inserts
the converted value under the stripped name and deletes the original
key, mutating the dict under the live iterator, and the next iterator
step raises `RuntimeError`: inserting a fresh key trips the
keys-changed-during-iteration guard, and overwriting an existing key
plus the delete shrinks the dict and trips the size guard. -/
def tidRun : List (List Char × Value) → List (List Char × Value) →
    Except PyErr (List (List Char × Value))
  | done, [] => .ok done
  | done, (k, v) :: rest =>
    if containsSub marker k then
      match convertValue v with
      | .error e => .error e
      | .ok _ => .error .runtimeError
    else tidRun (done ++ [(k, v)]) rest

/-- `timerinterval_to_datetime` (lines 80-85 of `iphoto.py`). -/
def timerinterval_to_datetime (data : Record) : Except PyErr Record :=
  tidRun [] data

-- ## Spec-side description of normalization (what the claim and the
-- repository's own unit test expect the loop to produce)

/-- Does this entry's key contain the marker substring? -/
def isMarkerEntry (e : List Char × Value) : Bool := containsSub marker e.1

/-- Spec-side rename-and-convert of a single matching entry. -/
def convEntry (e : List Char × Value) : List Char × Value :=
  (stripM e.1,
    match e.2 with
    | .num q => .dt (convert_timer_interval q)
    | v => v)

/-- Modelled from the spec's contract for `normalize_record`: keep the
non-matching entries (in order), and append each matching entry renamed
by removing the marker and converted to a timestamp, in scan order. -/
def normalizeSpec (r : Record) : Record :=
  r.filter (fun e => !isMarkerEntry e) ++ (r.filter isMarkerEntry).map convEntry

-- ## The database model (`IPhoto.__init__` and queries)

/-- One entry of the top-level `List of Albums` array, with the four
fields `IPhoto.__init__` reads. -/
structure AlbumEntry where
  albumId : Value
  albumName : List Char
  keyList : List (List Char)
  photoCount : Int
deriving DecidableEq

/-- The parsed `AlbumData.xml` document: the two top-level keys the
program reads (`plistlib.readPlist` itself is an external collaborator). -/
structure Database where
  masterImageList : List (List Char × Record)
  listOfAlbums : List AlbumEntry
deriving DecidableEq

/-- The album record stored per album name:
`{'photos': KeyList, 'count': PhotoCount, 'id': AlbumId}`. -/
structure AlbumRec where
  photos : List (List Char)
  count : Int
  id : Value
deriving DecidableEq

/-- The constructed model: `self._images` and `self._albums`. -/
structure IPhoto where
  images : List (List Char × Record)
  albums : List (List Char × AlbumRec)
deriving DecidableEq

/-- The image-loading loop of `IPhoto.__init__` (lines 110-113):
normalize every master-image record and store it keyed by image id. -/
def loadImages : List (List Char × Record) → List (List Char × Record) →
    Except PyErr (List (List Char × Record))
  | acc, [] => .ok acc
  | acc, (iid, r) :: rest =>
    match timerinterval_to_datetime r with
    | .error e => .error e
    | .ok r' => loadImages (dictSet acc iid r') rest

/-- The album-loading loop of `IPhoto.__init__` (lines 116-121): check
`PhotoCount == len(KeyList)` (else `ValueError`) and store the album
record keyed by album name. -/
def loadAlbums : List (List Char × AlbumRec) → List AlbumEntry →
    Except PyErr (List (List Char × AlbumRec))
  | acc, [] => .ok acc
  | acc, a :: rest =>
    if a.photoCount ≠ (a.keyList.length : Int) then .error .valueError
    else loadAlbums (dictSet acc a.albumName ⟨a.keyList, a.photoCount, a.albumId⟩) rest

/-- `IPhoto.__init__` after the document has been parsed (lines 104-121):
images first, then albums; any exception aborts construction. -/
def IPhoto.init (db : Database) : Except PyErr IPhoto :=
  match loadImages [] db.masterImageList with
  | .error e => .error e
  | .ok imgs =>
    match loadAlbums [] db.listOfAlbums with
    | .error e => .error e
    | .ok albs => .ok ⟨imgs, albs⟩

/-- `IPhoto.albums` (lines 123-131): the album names in insertion order. -/
def IPhoto.albumNames (st : IPhoto) : List (List Char) :=
  st.albums.map Prod.fst

/-- `IPhoto.album_data` (lines 133-145): `self._albums[album_name]`,
`KeyError` when absent. -/
def IPhoto.album_data (st : IPhoto) (name : List Char) : Except PyErr AlbumRec :=
  match dictLookup st.albums name with
  | none => .error (.keyError name)
  | some a => .ok a

/-- The loop body of `IPhoto.photos` (lines 171-175) over the album's
photo-id list. Line 173 tests `"OriginalPath" in photo` where `photo`
is the id string drawn from the KeyList, so the skip condition is a
substring test on the id. A yielded id missing from `self._images`
raises `KeyError` at that element. -/
def photosRun (images : List (List Char × Record)) (includeRaw : Bool) :
    List (List Char) → Except PyErr (List Record)
  | [] => .ok []
  | pid :: rest =>
    if containsSub opath pid && !includeRaw then photosRun images includeRaw rest
    else
      match dictLookup images pid with
      | none => .error (.keyError pid)
      | some r => Except.map (fun l => r :: l) (photosRun images includeRaw rest)

/-- `IPhoto.photos` (lines 147-175), with the generator materialized:
the sequence of produced records, or the exception its consumption
raises. -/
def IPhoto.photos (st : IPhoto) (album : List Char) (includeRaw : Bool) :
    Except PyErr (List Record) :=
  match IPhoto.album_data st album with
  | .error e => .error e
  | .ok a => photosRun st.images includeRaw a.photos

-- ## Path handling (lines 99-103)

/-- Two-argument `os.path.join` on POSIX: an absolute second part wins;
otherwise concatenate, inserting a slash unless the first part is empty
or already ends in one. -/
def pathJoin (a b : List Char) : List Char :=
  if b.head? = some '/' then b
  else if a = [] ∨ a.getLast? = some '/' then a ++ b
  else a ++ '/' :: b

/-- Lines 99-101 of `iphoto.py`: expand `iphoto_library` against `home`
only when it starts with the two-character prefix `"~/"`. -/
def resolveLibraryPath (home p : List Char) : List Char :=
  if ("~/".toList).isPrefixOf p then pathJoin home (p.drop 2) else p

-- ## Concrete inputs used by the example-level theorems

/-- The record of the spec's `normalize_record` example (and of
`test_timerinterval_to_datetime`). -/
def exRecC3 : Record :=
  [("DateAsTimerInterval".toList, .num 360962921),
   ("DateAsTimerIntervalGMT".toList, .num 360948521),
   ("MetaModDateAsTimerInterval".toList, .num (409536614.113663 : ℚ)),
   ("ModDateAsTimerInterval".toList, .num 377914153)]

/-- The expected normalization of `exRecC3`. -/
def expectedC3 : Record :=
  [("Date".toList, .dt ⟨2012, 6, 9, 19, 28, 41, 0⟩),
   ("DateGMT".toList, .dt ⟨2012, 6, 9, 15, 28, 41, 0⟩),
   ("MetaModDate".toList, .dt ⟨2013, 12, 24, 0, 10, 14, 113663⟩),
   ("ModDate".toList, .dt ⟨2012, 12, 23, 0, 9, 13, 0⟩)]

/-- An image record flagged as RAW: it contains an `OriginalPath` key. -/
def rawRec : Record :=
  [("OriginalPath".toList, .str "".toList), ("Caption".toList, .str "x".toList)]

/-- An ordinary image record without an `OriginalPath` key. -/
def plainRec : Record := [("Caption".toList, .str "y".toList)]

/-- A document with a RAW image `"1"`, a plain image whose id string
happens to contain `"OriginalPath"`, and one single-photo album for
each. -/
def exDbC1 : Database :=
  ⟨[("1".toList, rawRec), ("myOriginalPathId".toList, plainRec)],
   [⟨.num 1, "album1".toList, ["1".toList], 1⟩,
    ⟨.num 2, "album2".toList, ["myOriginalPathId".toList], 1⟩]⟩

/-- The model `IPhoto.__init__` builds from `exDbC1`. -/
def exModelC1 : IPhoto :=
  ⟨[("1".toList, rawRec), ("myOriginalPathId".toList, plainRec)],
   [("album1".toList, ⟨["1".toList], 1, .num 1⟩),
    ("album2".toList, ⟨["myOriginalPathId".toList], 1, .num 2⟩)]⟩

/-- An image record whose timer-interval field holds a string, so that
normalization raises `TypeError`. -/
def badImageRec : Record := [("DateAsTimerInterval".toList, .str "oops".toList)]

/-- A document whose image list fails to normalize and whose only album
also has `PhotoCount != len(KeyList)`. -/
def exDbC4 : Database :=
  ⟨[("1".toList, badImageRec)], [⟨.num 7, "a".toList, [], 1⟩]⟩

/-- A document with no images and one album with a count mismatch. -/
def misDb : Database := ⟨[], [⟨.num 7, "a".toList, [], 1⟩]⟩

/-- A model with an album whose photo list references image id `"x"`,
which is absent from the (empty) image collection. -/
def danglingModel : IPhoto :=
  ⟨[], [("al".toList, ⟨["x".toList], 1, .num 1⟩)]⟩

-- ## Theorems: calendar arithmetic

theorem yoe_bounds (doe yoe : Int) (h0 : 0 ≤ doe) (h1 : doe < 146097)
    (hy : yoe = (doe - doe / 1460 + doe / 36524 - doe / 146096) / 365) :
    0 ≤ yoe ∧ yoe ≤ 399 := by
  omega

set_option maxHeartbeats 4000000 in
theorem doy_bounds (doe yoe : Int) (h0 : 0 ≤ doe) (h1 : doe < 146097)
    (hy : yoe = (doe - doe / 1460 + doe / 36524 - doe / 146096) / 365) :
    0 ≤ doe - (365 * yoe + yoe / 4 - yoe / 100) ∧
      doe - (365 * yoe + yoe / 4 - yoe / 100) ≤ 365 := by
  have hb0 : 0 ≤ yoe := by omega
  have hb1 : yoe ≤ 399 := by omega
  interval_cases yoe <;> omega

theorem mp_bounds (doy mp : Int) (h0 : 0 ≤ doy) (h1 : doy ≤ 365)
    (hm : mp = (5 * doy + 2) / 153) :
    0 ≤ mp ∧ mp ≤ 11 := by
  omega

theorem daysFromCivil_core (z era doe yoe doy mp m d yv : Int)
    (hera : era = (z + 719468) / 146097)
    (hdoe : doe = z + 719468 - era * 146097)
    (hyoe : yoe = (doe - doe / 1460 + doe / 36524 - doe / 146096) / 365)
    (hdoy : doy = doe - (365 * yoe + yoe / 4 - yoe / 100))
    (hmp : mp = (5 * doy + 2) / 153)
    (hd : d = doy - (153 * mp + 2) / 5 + 1)
    (hm : m = mp + (if mp < 10 then 3 else -9))
    (hy : yv = if m ≤ 2 then (yoe + era * 400) + 1 else yoe + era * 400) :
    daysFromCivil yv m d = z := by
  have hdoeb : 0 ≤ doe ∧ doe < 146097 := by omega
  have hyoeb : 0 ≤ yoe ∧ yoe ≤ 399 := yoe_bounds doe yoe hdoeb.1 hdoeb.2 hyoe
  have hdoyb : 0 ≤ doy ∧ doy ≤ 365 := by
    have h2 := doy_bounds doe yoe hdoeb.1 hdoeb.2 hyoe
    omega
  have hmpb : 0 ≤ mp ∧ mp ≤ 11 := mp_bounds doy mp hdoyb.1 hdoyb.2 hmp
  clear hera hyoe hmp
  unfold daysFromCivil
  dsimp only
  by_cases h10 : mp < 10
  · rw [if_pos h10] at hm
    subst hm
    have hm2 : ¬ (mp + 3 ≤ 2) := by omega
    rw [if_neg hm2] at hy
    rw [if_neg hm2]
    subst hy
    rw [show (yoe + era * 400) / 400 = era by omega]
    rw [show yoe + era * 400 - era * 400 = yoe by omega]
    rw [show (mp + 3 + 9) % 12 = mp by omega]
    omega
  · rw [if_neg h10] at hm
    subst hm
    have hm2 : mp + -9 ≤ 2 := by omega
    rw [if_pos hm2] at hy
    rw [if_pos hm2]
    subst hy
    rw [show (yoe + era * 400 + 1 - 1) / 400 = era by omega]
    rw [show yoe + era * 400 + 1 - 1 - era * 400 = yoe by omega]
    rw [show (mp + -9 + 9) % 12 = mp by omega]
    omega

theorem daysFromCivil_civilFromDays (z : Int) :
    daysFromCivil (civilFromDays z).1 (civilFromDays z).2.1 (civilFromDays z).2.2 = z :=
  daysFromCivil_core z _ _ _ _ _ _ _ _ rfl rfl rfl rfl rfl rfl rfl rfl

theorem instantUs_addTimedelta (t : DateTime) (us : Int) :
    instantUs (addTimedelta t us) = instantUs t + us := by
  unfold addTimedelta instantUs
  dsimp only
  rw [daysFromCivil_civilFromDays]
  omega

theorem roundHalfEven_intCast (n : Int) : roundHalfEven ((n : ℚ)) = n := by
  unfold roundHalfEven
  norm_num

theorem timedeltaUs_c2 : timedeltaUs (409106772.65649 : ℚ) = 409106772656490 := by
  unfold timedeltaUs
  rw [show (409106772.65649 : ℚ) * 1000000 = ((409106772656490 : ℤ) : ℚ) by norm_num]
  exact roundHalfEven_intCast _

/-- C2: for every finite numeric `seconds`, `epoch_to_timestamp(seconds)`
(`convert_timer_interval`) denotes the instant `2001-01-01T00:00:00`
plus `seconds` seconds (converted to microseconds by `timedelta`, which
preserves at least microsecond resolution), with no timezone conversion
applied (the model has no timezone notion at all); in particular
`epoch_to_timestamp(409106772.65649)` is `2013-12-19T00:46:12.656490`. -/
theorem C2_epoch_to_timestamp :
    (∀ s : ℚ, instantUs (convert_timer_interval s) = instantUs macEpochDT + timedeltaUs s) ∧
      convert_timer_interval (409106772.65649 : ℚ) = ⟨2013, 12, 19, 0, 46, 12, 656490⟩ := by
  constructor
  · intro s
    exact instantUs_addTimedelta macEpochDT (timedeltaUs s)
  · unfold convert_timer_interval
    rw [timedeltaUs_c2]
    decide
-- ## Theorems: dictionary bridges

theorem containsKeyB_iff {α : Type} (d : List (List Char × α)) (k : List Char) :
    containsKeyB d k = true ↔ k ∈ d.map Prod.fst := by
  unfold containsKeyB
  rw [List.any_eq_true]
  constructor
  · rintro ⟨e, he, hq⟩
    rw [beq_iff_eq] at hq
    subst hq
    exact List.mem_map_of_mem _ he
  · rintro hm
    obtain ⟨e, he, hq⟩ := List.mem_map.mp hm
    exact ⟨e, he, by rw [beq_iff_eq]; exact hq⟩

-- ## Theorems: single steps of the normalization loop

theorem tidRun_nil (done : List (List Char × Value)) : tidRun done [] = .ok done := by
  simp [tidRun]

theorem tidRun_cons_noMarker (done : List (List Char × Value)) (k : List Char) (v : Value)
    (rest : List (List Char × Value)) (h : containsSub marker k = false) :
    tidRun done ((k, v) :: rest) = tidRun (done ++ [(k, v)]) rest := by
  simp [tidRun, h]

theorem tidRun_cons_marker_err (done : List (List Char × Value)) (k : List Char) (v : Value)
    (rest : List (List Char × Value)) (e : PyErr) (h : containsSub marker k = true)
    (hc : convertValue v = .error e) :
    tidRun done ((k, v) :: rest) = .error e := by
  simp [tidRun, h, hc]

theorem tidRun_cons_marker_num (done : List (List Char × Value)) (k : List Char)
    (v v' : Value) (rest : List (List Char × Value)) (h : containsSub marker k = true)
    (hc : convertValue v = .ok v') :
    tidRun done ((k, v) :: rest) = .error .runtimeError := by
  simp [tidRun, h, hc]

-- ## Theorems: behaviour of the normalization loop

theorem tidRun_noMarker (pending : List (List Char × Value)) : ∀ done,
    (∀ e ∈ pending, containsSub marker e.1 = false) →
    tidRun done pending = .ok (done ++ pending) := by
  induction pending with
  | nil => intro done _; simp [tidRun_nil]
  | cons e rest ih =>
    intro done h
    obtain ⟨k, v⟩ := e
    rw [tidRun_cons_noMarker done k v rest (h (k, v) (List.mem_cons_self _ _))]
    rw [ih (done ++ [(k, v)]) (fun e he => h e (List.mem_cons_of_mem _ he))]
    simp

theorem tidRun_ok_noMarker (done pending : List (List Char × Value)) :
    ∀ res, tidRun done pending = .ok res →
    (∀ e ∈ done, containsSub marker e.1 = false) →
    ∀ e ∈ res, containsSub marker e.1 = false := by
  induction pending generalizing done with
  | nil =>
    intro res hres hdone
    rw [tidRun_nil] at hres
    cases hres
    exact hdone
  | cons ev rest ih =>
    intro res hres hdone
    obtain ⟨k, v⟩ := ev
    by_cases hm : containsSub marker k = true
    · cases hc : convertValue v with
      | error e =>
        rw [tidRun_cons_marker_err done k v rest e hm hc] at hres
        cases hres
      | ok v2 =>
        rw [tidRun_cons_marker_num done k v v2 rest hm hc] at hres
        cases hres
    · have hm2 : containsSub marker k = false := by simpa using hm
      rw [tidRun_cons_noMarker done k v rest hm2] at hres
      refine ih (done ++ [(k, v)]) res hres ?_
      intro e he
      rcases List.mem_append.mp he with h1 | h1
      · exact hdone e h1
      · rw [List.mem_singleton] at h1
        subst h1
        exact hm2

theorem tidRun_no_valueError (done pending : List (List Char × Value)) :
    tidRun done pending ≠ .error .valueError := by
  induction pending generalizing done with
  | nil =>
    rw [tidRun_nil]
    intro h
    cases h
  | cons ev rest ih =>
    obtain ⟨k, v⟩ := ev
    by_cases hm : containsSub marker k = true
    · cases hc : convertValue v with
      | error e =>
        rw [tidRun_cons_marker_err done k v rest e hm hc]
        cases v with
        | num q => simp [convertValue] at hc
        | str s =>
          simp only [convertValue] at hc
          cases hc
          intro h
          cases h
        | dt t =>
          simp only [convertValue] at hc
          cases hc
          intro h
          cases h
      | ok v2 =>
        rw [tidRun_cons_marker_num done k v v2 rest hm hc]
        intro h
        cases h
    · have hm2 : containsSub marker k = false := by simpa using hm
      rw [tidRun_cons_noMarker done k v rest hm2]
      exact ih (done ++ [(k, v)])

-- ## Theorems: concrete conversions of the test values

theorem cti_1 : convert_timer_interval (360962921 : ℚ) = ⟨2012, 6, 9, 19, 28, 41, 0⟩ := by
  unfold convert_timer_interval
  rw [show timedeltaUs (360962921 : ℚ) = 360962921000000 by
    unfold timedeltaUs
    rw [show (360962921 : ℚ) * 1000000 = ((360962921000000 : ℤ) : ℚ) by norm_num]
    exact roundHalfEven_intCast _]
  decide

theorem cti_2 : convert_timer_interval (360948521 : ℚ) = ⟨2012, 6, 9, 15, 28, 41, 0⟩ := by
  unfold convert_timer_interval
  rw [show timedeltaUs (360948521 : ℚ) = 360948521000000 by
    unfold timedeltaUs
    rw [show (360948521 : ℚ) * 1000000 = ((360948521000000 : ℤ) : ℚ) by norm_num]
    exact roundHalfEven_intCast _]
  decide

theorem cti_3 : convert_timer_interval (409536614.113663 : ℚ) = ⟨2013, 12, 24, 0, 10, 14, 113663⟩ := by
  unfold convert_timer_interval
  rw [show timedeltaUs (409536614.113663 : ℚ) = 409536614113663 by
    unfold timedeltaUs
    rw [show (409536614.113663 : ℚ) * 1000000 = ((409536614113663 : ℤ) : ℚ) by norm_num]
    exact roundHalfEven_intCast _]
  decide

theorem cti_4 : convert_timer_interval (377914153 : ℚ) = ⟨2012, 12, 23, 0, 9, 13, 0⟩ := by
  unfold convert_timer_interval
  rw [show timedeltaUs (377914153 : ℚ) = 377914153000000 by
    unfold timedeltaUs
    rw [show (377914153 : ℚ) * 1000000 = ((377914153000000 : ℤ) : ℚ) by norm_num]
    exact roundHalfEven_intCast _]
  decide

/-- C3 (code bug): the claim states -- and the repository's own
`test_timerinterval_to_datetime` asserts -- that the four-field example
record maps to exactly the renamed, converted record; but lines 83-84
insert and delete keys in the dict being iterated, so on CPython with
the dict-mutation guards the loop raises `RuntimeError` at the first
rename and never produces a record. The spec-modelled transform
`normalizeSpec` yields exactly the expected record the claim describes. -/
theorem C3_normalize_record :
    timerinterval_to_datetime exRecC3 = .error .runtimeError ∧
      normalizeSpec exRecC3 = expectedC3 := by
  constructor
  · show tidRun [] exRecC3 = Except.error PyErr.runtimeError
    rw [show exRecC3 = ("DateAsTimerInterval".toList, Value.num 360962921) ::
        [("DateAsTimerIntervalGMT".toList, Value.num 360948521),
         ("MetaModDateAsTimerInterval".toList, Value.num (409536614.113663 : ℚ)),
         ("ModDateAsTimerInterval".toList, Value.num 377914153)] from rfl]
    exact tidRun_cons_marker_num _ _ _ (Value.dt (convert_timer_interval 360962921)) _
      (by decide) rfl
  · rw [show normalizeSpec exRecC3 =
        [("Date".toList, Value.dt (convert_timer_interval (360962921 : ℚ))),
         ("DateGMT".toList, Value.dt (convert_timer_interval (360948521 : ℚ))),
         ("MetaModDate".toList, Value.dt (convert_timer_interval (409536614.113663 : ℚ))),
         ("ModDate".toList, Value.dt (convert_timer_interval (377914153 : ℚ)))] from rfl]
    rw [cti_1, cti_2, cti_3, cti_4]
    rfl

/-- C7: whenever `normalize_record` succeeds, its output has no marker
key, so a second application returns the output unchanged; in
particular a record with zero marker keys passes through unchanged. -/
theorem C7_normalize_idempotent :
    (∀ r r' : Record, timerinterval_to_datetime r = .ok r' →
        timerinterval_to_datetime r' = .ok r') ∧
    (∀ r : Record, (∀ e ∈ r, containsSub marker e.1 = false) →
        timerinterval_to_datetime r = .ok r) := by
  have hid : ∀ r : Record, (∀ e ∈ r, containsSub marker e.1 = false) →
      timerinterval_to_datetime r = .ok r := by
    intro r h
    rw [timerinterval_to_datetime, tidRun_noMarker r [] h]
    rfl
  refine ⟨?_, hid⟩
  intro r r' h
  exact hid r' (tidRun_ok_noMarker [] r r' h (by simp))

/-- The already-normalized example record has no marker key, so the
loop passes it through unchanged. -/
theorem tid_expectedC3 : timerinterval_to_datetime expectedC3 = .ok expectedC3 := by
  rw [timerinterval_to_datetime, tidRun_noMarker expectedC3 [] (by decide)]
  rfl

/-- C7 witness: the theorem applied at concrete records -- the
already-normalized example record as a fixed point of the first
conjunct, and a marker-free record passing through by the second. -/
theorem C7_normalize_idempotent_witness :
    timerinterval_to_datetime expectedC3 = .ok expectedC3 ∧
      timerinterval_to_datetime plainRec = .ok plainRec :=
  ⟨C7_normalize_idempotent.1 expectedC3 expectedC3 tid_expectedC3,
   C7_normalize_idempotent.2 plainRec (by decide)⟩

/-- C9: the new-key computation of line 82,
`key.replace('AsTimerInterval', '')`, removes every non-overlapping
occurrence of the marker when computing the new key name, not just the
first: `"XAsTimerIntervalYAsTimerInterval"` becomes `"XY"` (a
first-occurrence-only rename would leave `"XYAsTimerInterval"`), and a
key with three occurrences becomes `"XYZ"`. -/
theorem C9_strip_all_occurrences :
    stripM ("XAsTimerIntervalYAsTimerInterval".toList) = "XY".toList ∧
      stripM ("XAsTimerIntervalYAsTimerIntervalZAsTimerInterval".toList) = "XYZ".toList ∧
      "XY".toList ≠ "XYAsTimerInterval".toList := by
  refine ⟨by decide, by decide, by decide⟩

-- ## Theorems: loading the image collection

theorem dictSet_forall {α : Type} (Q : α → Prop) (d : List (List Char × α)) (k : List Char)
    (v : α) (hd : ∀ p ∈ d, Q p.2) (hv : Q v) : ∀ p ∈ dictSet d k v, Q p.2 := by
  intro p hp
  unfold dictSet at hp
  by_cases hc : containsKeyB d k = true
  · rw [if_pos hc] at hp
    obtain ⟨e, he, heq⟩ := List.mem_map.mp hp
    by_cases hek : (e.1 == k) = true
    · rw [if_pos hek] at heq
      subst heq
      exact hv
    · rw [if_neg hek] at heq
      subst heq
      exact hd e he
  · rw [if_neg hc] at hp
    rcases List.mem_append.mp hp with h | h
    · exact hd p h
    · rw [List.mem_singleton] at h
      subst h
      exact hv

theorem loadImages_values : ∀ (l acc res : List (List Char × Record)),
    loadImages acc l = .ok res →
    (∀ p ∈ acc, ∀ e ∈ p.2, containsSub marker e.1 = false) →
    ∀ p ∈ res, ∀ e ∈ p.2, containsSub marker e.1 = false := by
  intro l
  induction l with
  | nil =>
    intro acc res h hacc
    simp only [loadImages] at h
    cases h
    exact hacc
  | cons ir rest ih =>
    intro acc res h hacc
    obtain ⟨iid, r⟩ := ir
    cases htid : timerinterval_to_datetime r with
    | error e =>
      simp only [loadImages, htid] at h
      simp at h
    | ok r' =>
      simp only [loadImages, htid] at h
      exact ih (dictSet acc iid r') res h
        (dictSet_forall (fun rr => ∀ e ∈ rr, containsSub marker e.1 = false) acc iid r' hacc
          (tidRun_ok_noMarker [] r r' htid (by simp)))

theorem loadImages_pairs : ∀ (l acc res : List (List Char × Record)),
    loadImages acc l = .ok res →
    (l.map Prod.fst).Nodup →
    (∀ k ∈ l.map Prod.fst, containsKeyB acc k = false) →
    ∃ rs, res = acc ++ rs ∧
      List.Forall₂ (fun a b => a.1 = b.1 ∧ timerinterval_to_datetime a.2 = .ok b.2) l rs := by
  intro l
  induction l with
  | nil =>
    intro acc res h _ _
    simp only [loadImages] at h
    cases h
    exact ⟨[], by simp, List.Forall₂.nil⟩
  | cons ir rest ih =>
    intro acc res h hnd hdisj
    obtain ⟨iid, r⟩ := ir
    cases htid : timerinterval_to_datetime r with
    | error e =>
      simp only [loadImages, htid] at h
      simp at h
    | ok r' =>
      simp only [loadImages, htid] at h
      have hiid : containsKeyB acc iid = false :=
        hdisj iid (by rw [List.map_cons]; exact List.mem_cons_self _ _)
      have hset : dictSet acc iid r' = acc ++ [(iid, r')] := by
        unfold dictSet
        rw [if_neg (by rw [hiid]; exact Bool.false_ne_true)]
      rw [hset] at h
      have hnd' : (rest.map Prod.fst).Nodup := by
        rw [List.map_cons, List.nodup_cons] at hnd
        exact hnd.2
      have hiidfresh : iid ∉ rest.map Prod.fst := by
        rw [List.map_cons, List.nodup_cons] at hnd
        exact hnd.1
      have hdisj' : ∀ k ∈ rest.map Prod.fst, containsKeyB (acc ++ [(iid, r')]) k = false := by
        intro k hk
        have h1 : containsKeyB acc k = false :=
          hdisj k (by rw [List.map_cons]; exact List.mem_cons_of_mem _ hk)
        have h2 : k ≠ iid := fun he => hiidfresh (he ▸ hk)
        rw [Bool.eq_false_iff]
        intro hcon
        rw [containsKeyB_iff, List.map_append, List.mem_append] at hcon
        rcases hcon with hcon | hcon
        · rw [← containsKeyB_iff] at hcon
          rw [hcon] at h1
          cases h1
        · simp at hcon
          exact h2 hcon
      obtain ⟨rs, hres, hf⟩ := ih (acc ++ [(iid, r')]) res h hnd' hdisj'
      refine ⟨(iid, r') :: rs, ?_, List.Forall₂.cons ⟨rfl, htid⟩ hf⟩
      rw [hres]
      simp

theorem loadImages_no_valueError : ∀ (l acc : List (List Char × Record)),
    loadImages acc l ≠ .error .valueError := by
  intro l
  induction l with
  | nil =>
    intro acc h
    simp only [loadImages] at h
    simp at h
  | cons ir rest ih =>
    intro acc
    obtain ⟨iid, r⟩ := ir
    cases htid : timerinterval_to_datetime r with
    | error e =>
      simp only [loadImages, htid]
      intro h
      injection h with he
      subst he
      exact tidRun_no_valueError [] r htid
    | ok r' =>
      simp only [loadImages, htid]
      exact ih (dictSet acc iid r')

-- ## Theorems: loading the album collection

theorem loadAlbums_mismatch : ∀ (l : List AlbumEntry) (acc : List (List Char × AlbumRec)),
    (∃ a ∈ l, a.photoCount ≠ (a.keyList.length : Int)) →
    loadAlbums acc l = .error .valueError := by
  intro l
  induction l with
  | nil =>
    intro acc h
    obtain ⟨a, ha, _⟩ := h
    cases ha
  | cons a rest ih =>
    intro acc h
    by_cases hc : a.photoCount ≠ (a.keyList.length : Int)
    · simp only [loadAlbums]
      rw [if_pos hc]
    · simp only [loadAlbums]
      rw [if_neg hc]
      refine ih _ ?_
      obtain ⟨b, hb, hne⟩ := h
      rcases List.mem_cons.mp hb with rfl | hb'
      · exact absurd hne hc
      · exact ⟨b, hb', hne⟩

theorem loadAlbums_allmatch : ∀ (l : List AlbumEntry) (acc : List (List Char × AlbumRec)),
    (∀ a ∈ l, a.photoCount = (a.keyList.length : Int)) →
    ∃ res, loadAlbums acc l = .ok res := by
  intro l
  induction l with
  | nil => intro acc _; exact ⟨acc, rfl⟩
  | cons a rest ih =>
    intro acc h
    simp only [loadAlbums]
    rw [if_neg (by simp [h a (List.mem_cons_self _ _)])]
    exact ih _ (fun b hb => h b (List.mem_cons_of_mem _ hb))

/-- C4 (amended): provided the image-normalization pass succeeds, a
document in which some album's `PhotoCount` differs from the length of
its `KeyList` makes construction fail with `ValueError` (the spec's
`ConsistencyError`) and no model is returned; conversely, when every
album's count matches, construction never fails with `ValueError`.
(Unrestricted, the claim is false: a document whose image records fail
to normalize aborts with `TypeError` before the count check runs.) -/
theorem C4_consistency_check : ∀ db : Database,
    ((∃ a ∈ db.listOfAlbums, a.photoCount ≠ (a.keyList.length : Int)) →
      ∀ imgs, loadImages [] db.masterImageList = .ok imgs →
        IPhoto.init db = .error .valueError) ∧
    ((∀ a ∈ db.listOfAlbums, a.photoCount = (a.keyList.length : Int)) →
      IPhoto.init db ≠ .error .valueError) := by
  intro db
  constructor
  · intro hex imgs himgs
    unfold IPhoto.init
    rw [himgs, loadAlbums_mismatch db.listOfAlbums [] hex]
  · intro hall
    unfold IPhoto.init
    cases himgs : loadImages [] db.masterImageList with
    | error e =>
      intro h
      injection h with he
      subst he
      exact loadImages_no_valueError db.masterImageList [] himgs
    | ok imgs =>
      obtain ⟨res, hres⟩ := loadAlbums_allmatch db.listOfAlbums [] hall
      rw [hres]
      intro h
      cases h

/-- C4 counterexample: `exDbC4` has an album with `PhotoCount=1` and an
empty `KeyList`, yet construction fails with `TypeError` (raised while
normalizing the image records, before the count check), not with the
`ValueError` the claim promises. -/
theorem C4_consistency_check_counterexample :
    IPhoto.init exDbC4 = .error .typeError ∧
      (∃ a ∈ exDbC4.listOfAlbums, a.photoCount ≠ (a.keyList.length : Int)) ∧
      PyErr.typeError ≠ PyErr.valueError := by
  refine ⟨?_, by decide, by decide⟩
  have htid : timerinterval_to_datetime badImageRec = .error .typeError :=
    tidRun_cons_marker_err [] ("DateAsTimerInterval".toList) (Value.str "oops".toList) []
      .typeError (by decide) rfl
  have h2 : loadImages [] exDbC4.masterImageList = .error .typeError := by
    show loadImages [] [("1".toList, badImageRec)] = .error .typeError
    simp only [loadImages, htid]
  unfold IPhoto.init
  rw [h2]

/-- C4 witness: a mismatching album alone does produce `ValueError`, and
a fully consistent document never does. -/
theorem C4_consistency_check_witness :
    IPhoto.init misDb = .error .valueError ∧ IPhoto.init exDbC1 ≠ .error .valueError :=
  ⟨(C4_consistency_check misDb).1 ⟨⟨.num 7, "a".toList, [], 1⟩, by decide, by decide⟩ [] rfl,
   (C4_consistency_check exDbC1).2 (by decide)⟩

/-- C8: in every successfully constructed model, the stored image
records are exactly the `normalize_record` images of the document's
"Master Image List" entries, in order and keyed by the same image-id
(stated for well-formed documents without duplicate image-ids), and
consequently no stored image record has a key containing
"AsTimerInterval" (this part holds unconditionally; and no query
operation mutates the model, which is a pure value here). -/
theorem C8_images_normalized : ∀ (db : Database) (m : IPhoto),
    IPhoto.init db = .ok m →
    (∀ p ∈ m.images, ∀ e ∈ p.2, containsSub marker e.1 = false) ∧
    ((db.masterImageList.map Prod.fst).Nodup →
      List.Forall₂ (fun a b => a.1 = b.1 ∧ timerinterval_to_datetime a.2 = .ok b.2)
        db.masterImageList m.images) := by
  intro db m h
  unfold IPhoto.init at h
  cases himgs : loadImages [] db.masterImageList with
  | error e =>
    rw [himgs] at h
    simp at h
  | ok imgs =>
    rw [himgs] at h
    cases halbs : loadAlbums [] db.listOfAlbums with
    | error e =>
      rw [halbs] at h
      simp at h
    | ok albs =>
      rw [halbs] at h
      injection h with h2
      subst h2
      constructor
      · intro p hp
        exact loadImages_values db.masterImageList [] imgs himgs
          (fun p2 hp2 => absurd hp2 (List.not_mem_nil p2)) p hp
      · intro hnd
        obtain ⟨rs, hres, hf⟩ := loadImages_pairs db.masterImageList [] imgs himgs hnd
          (fun k _ => rfl)
        rw [List.nil_append] at hres
        show List.Forall₂ _ db.masterImageList imgs
        rw [hres]
        exact hf

-- ## Theorems: the query surface

/-- C5: `album_data` (and hence `list_photos`) on an unknown album name
fails with `KeyError` (the spec's `NotFoundError`) carrying the name;
on a known name `album_data` returns the stored album record. -/
theorem C5_album_lookup : ∀ (st : IPhoto) (name : List Char),
    (dictLookup st.albums name = none →
      IPhoto.album_data st name = .error (.keyError name) ∧
      ∀ raw, IPhoto.photos st name raw = .error (.keyError name)) ∧
    (∀ a, dictLookup st.albums name = some a → IPhoto.album_data st name = .ok a) := by
  intro st name
  constructor
  · intro h
    have had : IPhoto.album_data st name = .error (.keyError name) := by
      unfold IPhoto.album_data
      rw [h]
    refine ⟨had, fun raw => ?_⟩
    unfold IPhoto.photos
    rw [had]
  · intro a h
    unfold IPhoto.album_data
    rw [h]

/-- C5 witness: on `exModelC1`, an unknown name raises and a known name
returns the stored record. -/
theorem C5_album_lookup_witness :
    IPhoto.album_data exModelC1 ("nope".toList) = .error (.keyError ("nope".toList)) ∧
      IPhoto.album_data exModelC1 ("album1".toList) = .ok ⟨["1".toList], 1, .num 1⟩ :=
  ⟨((C5_album_lookup exModelC1 ("nope".toList)).1 rfl).1,
   (C5_album_lookup exModelC1 ("album1".toList)).2 _ rfl⟩

theorem photosRun_dangling (images : List (List Char × Record)) (raw : Bool) :
    ∀ (ids : List (List Char)) (i : Nat) (hi : i < ids.length),
    (containsSub opath (ids.get ⟨i, hi⟩) && !raw) = false →
    dictLookup images (ids.get ⟨i, hi⟩) = none →
    (∀ j (hj : j < i), (containsSub opath (ids.get ⟨j, Nat.lt_trans hj hi⟩) && !raw) = true ∨
        (dictLookup images (ids.get ⟨j, Nat.lt_trans hj hi⟩)).isSome = true) →
    photosRun images raw ids = .error (.keyError (ids.get ⟨i, hi⟩)) := by
  intro ids
  induction ids with
  | nil =>
    intro i hi
    exact absurd hi (by simp)
  | cons pid rest ih =>
    intro i hi hskip hnone hpre
    cases i with
    | zero =>
      have hskip2 : (containsSub opath pid && !raw) = false := hskip
      have hnone2 : dictLookup images pid = none := hnone
      show photosRun images raw (pid :: rest) = .error (.keyError pid)
      simp only [photosRun]
      rw [if_neg (by rw [hskip2]; exact Bool.false_ne_true), hnone2]
    | succ j =>
      have hj : j < rest.length := Nat.lt_of_succ_lt_succ hi
      have hskip2 : (containsSub opath (rest.get ⟨j, hj⟩) && !raw) = false := hskip
      have hnone2 : dictLookup images (rest.get ⟨j, hj⟩) = none := hnone
      have hpre2 : ∀ j2 (hj2 : j2 < j),
          (containsSub opath (rest.get ⟨j2, Nat.lt_trans hj2 hj⟩) && !raw) = true ∨
            (dictLookup images (rest.get ⟨j2, Nat.lt_trans hj2 hj⟩)).isSome = true :=
        fun j2 hj2 => hpre (j2 + 1) (Nat.succ_lt_succ hj2)
      have hrec := ih j hj hskip2 hnone2 hpre2
      show photosRun images raw (pid :: rest) = .error (.keyError (rest.get ⟨j, hj⟩))
      by_cases hs0 : (containsSub opath pid && !raw) = true
      · simp only [photosRun]
        rw [if_pos hs0]
        exact hrec
      · have hsome : (dictLookup images pid).isSome = true := by
          rcases hpre 0 (Nat.succ_pos j) with h0 | h0
          · exact absurd h0 hs0
          · exact h0
        obtain ⟨r0, hr0⟩ := Option.isSome_iff_exists.mp hsome
        simp only [photosRun]
        rw [if_neg hs0, hr0, hrec]
        rfl

/-- C6: if an album's photo list has, at position `i`, an id that the
RAW rule (as implemented: a substring test on the id) does not skip and
that has no entry in the image collection, and every earlier entry is
either skipped or present, then consuming `list_photos` fails with
`KeyError` carrying exactly that id, rather than silently skipping it. -/
theorem C6_dangling_reference : ∀ (st : IPhoto) (album : List Char) (a : AlbumRec)
    (raw : Bool) (i : Nat) (hi : i < a.photos.length),
    dictLookup st.albums album = some a →
    (containsSub opath (a.photos.get ⟨i, hi⟩) && !raw) = false →
    dictLookup st.images (a.photos.get ⟨i, hi⟩) = none →
    (∀ j (hj : j < i), (containsSub opath (a.photos.get ⟨j, Nat.lt_trans hj hi⟩) && !raw) = true ∨
        (dictLookup st.images (a.photos.get ⟨j, Nat.lt_trans hj hi⟩)).isSome = true) →
    IPhoto.photos st album raw = .error (.keyError (a.photos.get ⟨i, hi⟩)) := by
  intro st album a raw i hi ha hskip hnone hpre
  unfold IPhoto.photos IPhoto.album_data
  rw [ha]
  exact photosRun_dangling st.images raw a.photos i hi hskip hnone hpre

/-- C6 witness: a model whose only album references the absent image id
`"x"` fails with `KeyError "x"`. -/
theorem C6_dangling_reference_witness :
    IPhoto.photos danglingModel ("al".toList) false = .error (.keyError ("x".toList)) :=
  C6_dangling_reference danglingModel ("al".toList) ⟨["x".toList], 1, .num 1⟩ false 0
    (by decide) rfl (by decide) rfl (fun j hj => absurd hj (Nat.not_lt_zero j))

/-- Constructing the model from `exDbC1`. -/
theorem init_exDbC1 : IPhoto.init exDbC1 = .ok exModelC1 := by
  have h1 : timerinterval_to_datetime rawRec = .ok rawRec := by
    rw [timerinterval_to_datetime, tidRun_noMarker rawRec [] (by decide)]
    rfl
  have h2 : timerinterval_to_datetime plainRec = .ok plainRec := by
    rw [timerinterval_to_datetime, tidRun_noMarker plainRec [] (by decide)]
    rfl
  have hli : loadImages [] exDbC1.masterImageList = .ok exModelC1.images := by
    show loadImages [] [("1".toList, rawRec), ("myOriginalPathId".toList, plainRec)] = _
    simp only [loadImages, h1, h2]
    rfl
  have hla : loadAlbums [] exDbC1.listOfAlbums = .ok exModelC1.albums := by rfl
  unfold IPhoto.init
  rw [hli, hla]

/-- C1 (code bug): line 173 of `iphoto.py` evaluates
`"OriginalPath" in photo` where `photo` is the photo-ID string drawn
from the album's KeyList, not the image record. Hence, with
`include_raw=false`, a record that does contain an `OriginalPath` key is
still produced (its id `"1"` has no such substring), while a record
without the key is silently dropped merely because its id contains the
substring; with `include_raw=true` nothing is dropped. The spec's rule
(skip exactly the records carrying an `OriginalPath` field) is the
documented intent (docstring line 152, comment line 172). -/
theorem C1_raw_skip_tests_id_string :
    IPhoto.init exDbC1 = .ok exModelC1 ∧
    containsKeyB rawRec opath = true ∧
    IPhoto.photos exModelC1 ("album1".toList) false = .ok [rawRec] ∧
    containsKeyB plainRec opath = false ∧
    IPhoto.photos exModelC1 ("album2".toList) false = .ok [] ∧
    IPhoto.photos exModelC1 ("album1".toList) true = .ok [rawRec] ∧
    IPhoto.photos exModelC1 ("album2".toList) true = .ok [plainRec] :=
  ⟨init_exDbC1, by decide, rfl, by decide, rfl, rfl, rfl⟩

/-- C8 witness: the invariant applied to the concretely loaded model. -/
theorem C8_images_normalized_witness :
    containsSub marker ("Caption".toList) = false ∧
      List.Forall₂ (fun a b => a.1 = b.1 ∧ timerinterval_to_datetime a.2 = .ok b.2)
        exDbC1.masterImageList exModelC1.images :=
  ⟨(C8_images_normalized exDbC1 exModelC1 init_exDbC1).1 ("1".toList, rawRec) (by decide)
      ("Caption".toList, Value.str "x".toList) (by decide),
   (C8_images_normalized exDbC1 exModelC1 init_exDbC1).2 (by decide)⟩

-- ## Theorems: path resolution

/-- C10: `__init__` expands the library path against HOME exactly when
it starts with the two-character prefix `"~/"` (the expansion being
`os.path.join` of HOME and the remainder); any other path -- including a
bare `"~"` and `"~user/..."` forms -- is used exactly as given. -/
theorem C10_home_expansion : ∀ home p : List Char,
    (("~/".toList).isPrefixOf p = true →
        resolveLibraryPath home p = pathJoin home (p.drop 2)) ∧
    (("~/".toList).isPrefixOf p = false → resolveLibraryPath home p = p) ∧
    resolveLibraryPath home ("~".toList) = "~".toList ∧
    resolveLibraryPath home ("~user/pics".toList) = "~user/pics".toList := by
  intro home p
  refine ⟨fun h => ?_, fun h => ?_, ?_, ?_⟩
  · unfold resolveLibraryPath
    rw [if_pos h]
  · unfold resolveLibraryPath
    rw [if_neg (by rw [h]; exact Bool.false_ne_true)]
  · rfl
  · rfl

/-- C10 witness: a `"~/"` path is joined to HOME; an absolute path is
untouched. -/
theorem C10_home_expansion_witness :
    resolveLibraryPath ("/home/u".toList) ("~/pics".toList) =
        pathJoin ("/home/u".toList) (("~/pics".toList).drop 2) ∧
      resolveLibraryPath ("/home/u".toList) ("/abs".toList) = "/abs".toList :=
  ⟨(C10_home_expansion ("/home/u".toList) ("~/pics".toList)).1 (by decide),
   (C10_home_expansion ("/home/u".toList) ("/abs".toList)).2.1 (by decide)⟩
